import Mathlib

/-
Verification of the YouTube Shorts generator's core pipeline.

The TypeScript sources embedded here:
  * `app/api/generate-script/route.ts` — the `POST` handler with its
    deterministic fallback script generator and keyword extraction;
  * `components/VideoGenerator.tsx` — the pipeline orchestrator
    (`handleGenerate`) and the generate button's enablement logic.

The clip selector (`lib/videoSearch.selectClipsForDuration`) and the caption
aligner (`lib/textToSpeech.generateSubtitles`) are imported by the orchestrator
but their files are not part of the repository snapshot; they are modelled from
the specification's own description (sections 4.2 and 4.4) and marked as such.

Durations are JavaScript numbers in the source; they are modelled as exact
rationals (`ℚ`).  All definitions are executable; string primitives are
written structurally over `String.data` so the kernel can evaluate them on
concrete inputs.
-/

/-- `ScriptSegment` from `types/index.ts`: script text, planned duration in
seconds and search keywords. -/
structure ScriptSegment where
  text : String
  duration : ℚ
  keywords : List String
deriving DecidableEq

/-- `VideoClip` from `types/index.ts`: footage URL, usable duration and an
optional in-point offset. -/
structure VideoClip where
  url : String
  duration : ℚ
  startTime : Option ℚ
deriving DecidableEq

/-- `SubtitleSegment` from `types/index.ts`. -/
structure SubtitleSegment where
  startTime : ℚ
  endTime : ℚ
  text : String
deriving DecidableEq

/-- `VideoSettings` from `types/index.ts`.  The TypeScript type restricts
`duration` to `15 | 30 | 60` and `resolution` to two presets; here both are
carried as plain values and the restrictions appear as hypotheses where a
claim needs them. -/
structure VideoSettings where
  prompt : String
  duration : ℚ
  resolution : String
  voice : String
deriving DecidableEq

/-- JavaScript `toLowerCase`, as a structural map over the characters. -/
def jsToLowerCase (s : String) : String :=
  ⟨s.data.map Char.toLower⟩

/-- Split a character list at every whitespace character. -/
def splitOnWs : List Char → List (List Char)
  | [] => [[]]
  | c :: cs =>
      let r := splitOnWs cs
      if c.isWhitespace then [] :: r
      else (c :: r.headD []) :: r.tail

/-- JavaScript `split(/\s+/)`, modelled by splitting at every whitespace
character.  Relative to splitting on runs of whitespace this only adds empty
tokens, and every consumer in the source filters tokens by length, so the
observable result is the same. -/
def splitWs (s : String) : List String :=
  (splitOnWs s.data).map (fun cs => ⟨cs⟩)

/-- The stop word list of `extractKeywords` in `route.ts`. -/
def stopWords : List String :=
  ["a", "an", "the", "and", "or", "but", "in", "on", "at", "to", "for",
   "create", "video", "about"]

/-- `extractKeywords` from `route.ts`: lowercase the prompt, split it on
whitespace, drop stop words and words of length ≤ 3, keep the first 3. -/
def extractKeywords (prompt : String) : List String :=
  ((splitWs (jsToLowerCase prompt)).filter
    (fun word => decide (word ∉ stopWords) && decide (word.length > 3))).take 3

/-- Keyword extraction as the spec words it: "derived by lowercasing the
prompt, splitting on whitespace, discarding a fixed stopword list and words of
length ≤ 3, and keeping the first 3 remaining tokens" — with splitting on
whitespace read as producing the non-empty words.  Written from the spec's
words, to be compared with `extractKeywords`. -/
def extractKeywordsSpec (prompt : String) : List String :=
  (((splitWs (jsToLowerCase prompt)).filter (fun w => decide (w ≠ ""))).filter
    (fun w => decide (w ∉ stopWords) && decide (w.length > 3))).take 3

/-- The five template sentences of `createFallbackScript` in `route.ts`,
parameterized by the prompt. -/
def templates (prompt : String) : List String :=
  ["Welcome to this amazing " ++ prompt ++ ". Let's dive right in!",
   "Here's what makes " ++ prompt ++ " so special and unique.",
   "You won't believe these incredible facts about " ++ prompt ++ ".",
   "This is the ultimate guide to " ++ prompt ++ " you've been waiting for.",
   "Transform your life with " ++ prompt ++ " starting today."]

/-- `Math.ceil(duration / 5)` from `createFallbackScript`, as the number of
loop iterations (a non-positive count runs the loop body zero times). -/
def segmentCount (duration : ℚ) : ℕ :=
  (Int.ceil (duration / 5)).toNat

/-- `createFallbackScript` from `route.ts`: `ceil(duration/5)` segments of
equal duration `duration / segmentCount`, the `i`-th taking its text from
`templates[i % templates.length]`, all sharing `extractKeywords prompt`.
(The source also computes an unused local `totalWords`.) -/
def createFallbackScript (prompt : String) (duration : ℚ) : List ScriptSegment :=
  let n := segmentCount duration
  let segmentDuration : ℚ := duration / (n : ℚ)
  let keywords := extractKeywords prompt
  (List.range n).map (fun i =>
    { text := (templates prompt).getD (i % (templates prompt).length) ""
      duration := segmentDuration
      keywords := keywords })

/-- What `data.choices[0].message.content` and the subsequent
`JSON.parse(content)` yield when the HTTP call in `POST` succeeds. -/
inductive ContentOutcome where
  /-- `JSON.parse(content)` throws; the inline catch substitutes the
  fallback script. -/
  | parseError
  /-- `JSON.parse(content)` succeeds; `parsed.segments || parsed` is the
  value returned, abstracted here as the resulting segment list. -/
  | parsed (segments : List ScriptSegment)
deriving DecidableEq

/-- Outcome of the `fetch` to the text-generation service as observed by
`POST`. -/
inductive FetchOutcome where
  /-- The fetch promise rejects (network failure). -/
  | netError
  /-- A response arrives with `ok` false: the handler throws
  `new Error('OpenAI API request failed')`. -/
  | notOk
  /-- `response.json()` fails or `data.choices[0].message.content` is absent:
  the property access throws inside the try block. -/
  | shapeError
  /-- `response.ok` holds and the content is read. -/
  | ok (c : ContentOutcome)
deriving DecidableEq

/-- The input of one `POST` invocation: the request body's fields, whether the
body parses as JSON at all, the `OPENAI_API_KEY` environment variable, and the
fetch outcome (relevant only when the key is configured). -/
structure PostEnv where
  prompt : String
  duration : ℚ
  bodyValid : Bool
  apiKey : Option String
  fetchResult : FetchOutcome
deriving DecidableEq

/-- A resolved HTTP response of the handler: status code, the optional `error`
field of the JSON body, and its `segments` value. -/
structure PostResponse where
  status : ℕ
  error : Option String
  segments : List ScriptSegment
deriving DecidableEq

/-- How a `POST` invocation ends: a resolved response, or an unhandled
rejection (the handler's own promise rejects). -/
inductive PostResult where
  | resolved (r : PostResponse)
  | rejected (reason : String)
deriving DecidableEq

/-- A `POST` run: its result plus whether the external fetch was attempted. -/
structure PostRun where
  result : PostResult
  fetchAttempted : Bool
deriving DecidableEq

/-- The try block of `POST` in `route.ts`, lines 4–63: read the body, return
the fallback immediately when no API key is configured (without fetching),
otherwise fetch; a network failure, a non-OK response or a malformed response
shape throws, an unparseable `content` string is caught inline and replaced by
the fallback.  Returns the thrown error or the response, and whether the fetch
was attempted. -/
def tryBlock (env : PostEnv) : Except String PostResponse × Bool :=
  if !env.bodyValid then (.error "invalid JSON in request body", false)
  else
    match env.apiKey with
    | none =>
        (.ok { status := 200
               error := some "API key not configured"
               segments := createFallbackScript env.prompt env.duration }, false)
    | some _ =>
        match env.fetchResult with
        | .netError => (.error "fetch failed", true)
        | .notOk => (.error "OpenAI API request failed", true)
        | .shapeError => (.error "cannot read properties of undefined", true)
        | .ok c =>
            let segments := match c with
              | .parseError => createFallbackScript env.prompt env.duration
              | .parsed segs => segs
            (.ok { status := 200, error := none, segments := segments }, true)

/-- The `POST` handler of `route.ts`.  Its catch block (lines 64–70) runs
`await req.json()` a second time; the body stream was already consumed by the
first read in the try block (a `Request` body can be read at most once, and
even a failed parse disturbs the stream), so that second read rejects and the
whole handler rejects instead of returning the fallback response the catch
block constructs. -/
def POST (env : PostEnv) : PostRun :=
  match tryBlock env with
  | (.ok r, att) => { result := .resolved r, fetchAttempted := att }
  | (.error _, att) =>
      { result := .rejected "Body is unusable: Body has already been read"
        fetchAttempted := att }

/-- Total duration of a clip list. -/
def totalDur (clips : List VideoClip) : ℚ :=
  (clips.map (fun c => c.duration)).sum

/-- Modelled from the spec: one pass of the clip selector over the candidate
list (`lib/videoSearch.selectClipsForDuration` is not in the repository's
files; spec section 4.2).  While the remaining needed duration is positive,
each candidate shorter than it is taken whole; the first candidate that would
meet or overshoot the target is trimmed to exactly the remaining amount
(`startTime` preserved), which ends the pass with nothing remaining.
Returns the clips taken in this pass and the remaining duration after it. -/
def takePass : List VideoClip → ℚ → List VideoClip × ℚ
  | [], rem => ([], rem)
  | c :: cs, rem =>
      if rem ≤ 0 then ([], rem)
      else if c.duration < rem then
        let r := takePass cs (rem - c.duration)
        (c :: r.1, r.2)
      else ([{ c with duration := rem }], 0)

/-- Modelled from the spec: the selection loop.  The spec loops back over the
candidate list from the start until the cumulative duration meets the target
or a maximum number of passes is exceeded; `fuel` counts the passes still
allowed. -/
def selectGo (candidates : List VideoClip) (fuel : ℕ) (rem : ℚ)
    (acc : List VideoClip) : Option (List VideoClip) :=
  if rem ≤ 0 then some acc
  else
    match fuel with
    | 0 => none
    | f + 1 =>
        let p := takePass candidates rem
        selectGo candidates f p.2 (acc ++ p.1)

/-- Modelled from the spec: the maximum number of passes.  The spec leaves the
bound open; it is taken as one pass more than the target can need when every
full pass contributes `totalDur candidates`, so the bound is exceeded exactly
when the candidate list makes no progress. -/
def maxPasses (candidates : List VideoClip) (target : ℚ) : ℕ :=
  (Int.ceil (target / totalDur candidates)).toNat + 1

/-- Modelled from the spec: `selectClipsForDuration` (spec section 4.2).
Fails (`none`, the "no candidates" condition) on an empty candidate list, and
when the pass bound is exceeded (treated as exhaustion). -/
def selectClipsForDuration (candidates : List VideoClip) (target : ℚ) :
    Option (List VideoClip) :=
  if candidates.isEmpty then none
  else selectGo candidates (maxPasses candidates target) target []

/-- The whitespace-separated words of a text: its non-empty tokens. -/
def wordsOf (text : String) : List String :=
  (splitWs text).filter (fun w => w ≠ "")

/-- Join words with single spaces (the JavaScript join with a space separator). -/
def joinWords : List String → String
  | [] => ""
  | [w] => w
  | w :: ws => w ++ " " ++ joinWords ws

/-- Modelled from the spec: caption chunking
(`lib/textToSpeech.generateSubtitles` is not in the repository's files; spec
section 4.4).  The spec allows fixed word-count windows; windows of 5 words
are used. -/
def chunkWords : List String → List (List String)
  | [] => []
  | w :: ws => (w :: ws.take 4) :: chunkWords (ws.drop 4)
termination_by l => l.length
decreasing_by simp; omega

/-- Modelled from the spec: turn chunks into contiguous subtitle segments.
`t` is the running start time and `total` the total word count; each chunk
receives screen time proportional to its word count, and the final segment's
end is pinned to `d` (the spec absorbs accumulated rounding into the final
segment). -/
def buildSubs (d total : ℚ) : ℚ → List (List String) → List SubtitleSegment
  | _, [] => []
  | t, [c] => [{ startTime := t, endTime := d, text := joinWords c }]
  | t, c :: c' :: rest =>
      { startTime := t
        endTime := t + d * (c.length : ℚ) / total
        text := joinWords c } ::
      buildSubs d total (t + d * (c.length : ℚ) / total) (c' :: rest)

/-- Modelled from the spec: `generateSubtitles` (spec section 4.4): chunk the
text's words and distribute the actual audio duration proportionally. -/
def generateSubtitles (text : String) (d : ℚ) : List SubtitleSegment :=
  let ws := wordsOf text
  buildSubs d (ws.length : ℚ) 0 (chunkWords ws)

/-- The pipeline stages of `handleGenerate` in `VideoGenerator.tsx`
(steps 1–6 of the source). -/
inductive Stage where
  | script | search | voiceover | subtitles | ffmpeg | compose
deriving DecidableEq

/-- The outcomes of the external calls one run of `handleGenerate` makes.
`generateScript`, `searchVideos`, `generateVoiceover`, `loadFFmpeg` and
`composeVideo` are external collaborators (their lib files are not in the
repository snapshot); each is given by its observed outcome.  A voiceover
success carries the reported duration; `none` models JavaScript `undefined`. -/
structure GenEnv where
  settings : VideoSettings
  scriptResult : Except String (List ScriptSegment)
  searchResult : Except String (List VideoClip)
  voiceResult : Except String (Option ℚ)
  ffmpegResult : Except String Unit
  composeResult : Except String Unit

/-- The observable outcome of one `handleGenerate` run: the stages attempted
in order, the error state (`some` means the run ended in the Failed state with
that user-visible message), the duration that was passed to
`generateSubtitles` (when that call was reached), the subtitles produced, and
whether a video URL was produced. -/
structure RunTrace where
  stages : List Stage
  error : Option String
  captionDuration : Option ℚ
  subtitles : List SubtitleSegment
  videoReady : Bool
deriving DecidableEq

/-- JavaScript `a || b` applied to the reported voiceover duration
(line 78 of `VideoGenerator.tsx`): `undefined` and `0` are falsy. -/
def jsOrDuration : Option ℚ → ℚ → ℚ
  | none, fb => fb
  | some d, fb => if d = 0 then fb else d

/-- `handleGenerate` from `VideoGenerator.tsx`, lines 37–111.  Step 1 falls
back to `createFallbackScript` when `generateScript` fails (lines 49–54);
step 2 throws "No videos found for the given prompt" on an empty search result
(lines 63–65) before clip selection; a clip-selection failure also aborts the
run; steps 3–6 run in order, any thrown error landing in the catch block
(lines 104–107) which records the message as the error state. -/
def handleGenerate (env : GenEnv) : RunTrace :=
  let scriptSegments :=
    match env.scriptResult with
    | .ok s => s
    | .error _ => createFallbackScript env.settings.prompt env.settings.duration
  match env.searchResult with
  | .error e =>
      { stages := [.script, .search], error := some e,
        captionDuration := none, subtitles := [], videoReady := false }
  | .ok videoClips =>
    if videoClips.length = 0 then
      { stages := [.script, .search],
        error := some "No videos found for the given prompt",
        captionDuration := none, subtitles := [], videoReady := false }
    else
      match selectClipsForDuration videoClips env.settings.duration with
      | none =>
          { stages := [.script, .search],
            error := some "clip selection exhausted",
            captionDuration := none, subtitles := [], videoReady := false }
      | some _selectedClips =>
        match env.voiceResult with
        | .error e =>
            { stages := [.script, .search, .voiceover], error := some e,
              captionDuration := none, subtitles := [], videoReady := false }
        | .ok reported =>
          let fullScript := joinWords (scriptSegments.map (fun s => s.text))
          let capDur := jsOrDuration reported env.settings.duration
          let subtitles := generateSubtitles fullScript capDur
          match env.ffmpegResult with
          | .error e =>
              { stages := [.script, .search, .voiceover, .subtitles, .ffmpeg],
                error := some e, captionDuration := some capDur,
                subtitles := subtitles, videoReady := false }
          | .ok _ =>
            match env.composeResult with
            | .error e =>
                { stages := [.script, .search, .voiceover, .subtitles,
                             .ffmpeg, .compose],
                  error := some e, captionDuration := some capDur,
                  subtitles := subtitles, videoReady := false }
            | .ok _ =>
                { stages := [.script, .search, .voiceover, .subtitles,
                             .ffmpeg, .compose],
                  error := none, captionDuration := some capDur,
                  subtitles := subtitles, videoReady := true }

/-- The part of the `VideoGenerator` component state that governs the generate
button. -/
structure UIState where
  prompt : String
  isGenerating : Bool
deriving DecidableEq

/-- The generate button's `disabled` attribute, line 220 of
`VideoGenerator.tsx`: `isGenerating || !settings.prompt` (an empty string is
falsy in JavaScript). -/
def generateDisabled (s : UIState) : Bool :=
  s.isGenerating || decide (s.prompt = "")

/-- Clicking the generate button: a disabled button does not fire its `onClick`
handler, so a run begins (the first action of `handleGenerate` sets
`isGenerating`) only when the button is enabled. -/
def clickGenerate (s : UIState) : UIState :=
  if generateDisabled s then s else { s with isGenerating := true }

/-- The candidate clips of end-to-end scenario B: durations 4, 4, 4. -/
def scenarioB : List VideoClip :=
  [⟨"u1", 4, none⟩, ⟨"u2", 4, none⟩, ⟨"u3", 4, none⟩]

/-- A concrete run environment whose search yields no clips. -/
def noClipsEnv : GenEnv :=
  { settings := { prompt := "cats", duration := 30,
                  resolution := "1080x1920", voice := "v" }
    scriptResult := .error "generateScript failed"
    searchResult := .ok []
    voiceResult := .ok none
    ffmpegResult := .ok ()
    composeResult := .ok () }

/-- A concrete run environment whose voiceover succeeds but reports a duration
of `0` (a falsy value in JavaScript). -/
def zeroDurationEnv : GenEnv :=
  { settings := { prompt := "cats", duration := 30,
                  resolution := "1080x1920", voice := "v" }
    scriptResult := .ok []
    searchResult := .ok [⟨"u", 30, none⟩]
    voiceResult := .ok (some 0)
    ffmpegResult := .ok ()
    composeResult := .ok () }

/-- A concrete run environment whose voiceover succeeds and reports a nonzero
duration (12 seconds). -/
def reportedDurationEnv : GenEnv :=
  { settings := { prompt := "cats", duration := 30,
                  resolution := "1080x1920", voice := "v" }
    scriptResult := .ok []
    searchResult := .ok [⟨"u", 30, none⟩]
    voiceResult := .ok (some 12)
    ffmpegResult := .ok ()
    composeResult := .ok () }

lemma totalDur_nil : totalDur [] = 0 := rfl

lemma totalDur_cons (c : VideoClip) (l : List VideoClip) :
    totalDur (c :: l) = c.duration + totalDur l := by
  simp [totalDur]

lemma totalDur_append (a b : List VideoClip) :
    totalDur (a ++ b) = totalDur a + totalDur b := by
  simp [totalDur]

lemma takePass_snd_nonneg (l : List VideoClip) (rem : ℚ) (h : 0 < rem) :
    0 ≤ (takePass l rem).2 := by
  induction l generalizing rem with
  | nil => simpa [takePass] using h.le
  | cons c cs ih =>
      rw [takePass]
      rw [if_neg (not_le.mpr h)]
      by_cases hlt : c.duration < rem
      · rw [if_pos hlt]
        exact ih (rem - c.duration) (by linarith)
      · rw [if_neg hlt]

lemma takePass_progress (l : List VideoClip) (rem : ℚ)
    (h : 0 < (takePass l rem).2) :
    (takePass l rem).1 = l ∧ (takePass l rem).2 = rem - totalDur l := by
  induction l generalizing rem with
  | nil => simp [takePass, totalDur]
  | cons c cs ih =>
      by_cases h0 : rem ≤ 0
      · simp [takePass, h0] at h
        exact absurd h0 (not_le.mpr h)
      · by_cases hlt : c.duration < rem
        · simp only [takePass, h0, hlt, if_true, if_false] at h ⊢
          obtain ⟨h1, h2⟩ := ih (rem - c.duration) h
          refine ⟨by rw [h1], ?_⟩
          rw [h2, totalDur_cons]
          ring
        · simp [takePass, h0, hlt] at h

lemma takePass_structure (l : List VideoClip) (rem : ℚ) (hrem : 0 < rem)
    (h : (takePass l rem).2 ≤ 0) :
    ∃ ws c, (∀ x ∈ ws, x ∈ l) ∧ c ∈ l ∧
      (takePass l rem).1 = ws ++ [{ c with duration := rem - totalDur ws }] := by
  induction l generalizing rem with
  | nil => simp [takePass] at h; exact absurd hrem (not_lt.mpr h)
  | cons c cs ih =>
      by_cases hlt : c.duration < rem
      · simp only [takePass, if_neg (not_le.mpr hrem), if_pos hlt] at h ⊢
        obtain ⟨ws', c', hmem, hc, heq⟩ := ih (rem - c.duration) (by linarith) h
        refine ⟨c :: ws', c', ?_, List.mem_cons_of_mem _ hc, ?_⟩
        · intro x hx
          rcases List.mem_cons.mp hx with hx | hx
          · exact hx ▸ List.mem_cons_self _ _
          · exact List.mem_cons_of_mem _ (hmem x hx)
        · rw [heq, totalDur_cons]
          simp [sub_sub]
      · simp only [takePass, if_neg (not_le.mpr hrem), if_neg hlt]
        refine ⟨[], c, by simp, List.mem_cons_self _ _, ?_⟩
        simp [totalDur_nil]

lemma selectGo_stop (cands : List VideoClip) (fuel : ℕ) (rem : ℚ)
    (acc : List VideoClip) (h : rem ≤ 0) :
    selectGo cands fuel rem acc = some acc := by
  cases fuel <;> simp [selectGo, h]

lemma selectGo_some_structure (cands : List VideoClip) (fuel : ℕ) (rem : ℚ)
    (acc out : List VideoClip) (hrem : 0 < rem)
    (heq : selectGo cands fuel rem acc = some out) :
    ∃ mid c, (∀ x ∈ mid, x ∈ cands) ∧ c ∈ cands ∧
      out = acc ++ mid ++ [{ c with duration := rem - totalDur mid }] := by
  induction fuel generalizing rem acc with
  | zero => simp [selectGo, if_neg (not_le.mpr hrem)] at heq
  | succ f ih =>
      rw [selectGo] at heq
      simp only [if_neg (not_le.mpr hrem)] at heq
      by_cases hp : 0 < (takePass cands rem).2
      · obtain ⟨h1, h2⟩ := takePass_progress cands rem hp
        obtain ⟨mid', c', hmem, hc, hout⟩ := ih _ _ hp heq
        refine ⟨cands ++ mid', c', ?_, hc, ?_⟩
        · intro x hx
          rcases List.mem_append.mp hx with hx | hx
          · exact hx
          · exact hmem x hx
        · rw [hout, h1, h2, totalDur_append]
          simp [List.append_assoc, sub_sub]
      · have hle : (takePass cands rem).2 ≤ 0 := not_lt.mp hp
        have h0 : (takePass cands rem).2 = 0 :=
          le_antisymm hle (takePass_snd_nonneg cands rem hrem)
        rw [h0, selectGo_stop cands f 0 _ le_rfl] at heq
        obtain ⟨ws, c, hmem, hc, hfst⟩ := takePass_structure cands rem hrem hle
        refine ⟨ws, c, hmem, hc, ?_⟩
        rw [← Option.some_inj.mp heq, hfst, List.append_assoc]

lemma selectGo_isSome (cands : List VideoClip) (fuel : ℕ) (rem : ℚ)
    (acc : List VideoClip) (htot : 0 < totalDur cands)
    (hfuel : rem ≤ (fuel : ℚ) * totalDur cands) :
    (selectGo cands fuel rem acc).isSome := by
  induction fuel generalizing rem acc with
  | zero =>
      have : rem ≤ 0 := by simpa using hfuel
      rw [selectGo_stop cands 0 rem acc this]
      rfl
  | succ f ih =>
      by_cases h0 : rem ≤ 0
      · rw [selectGo_stop cands _ rem acc h0]; rfl
      · rw [selectGo, if_neg h0]
        by_cases hp : 0 < (takePass cands rem).2
        · obtain ⟨_, h2⟩ := takePass_progress cands rem hp
          refine ih _ _ ?_
          rw [h2]
          push_cast at hfuel ⊢
          linarith
        · refine ih _ _ ?_
          have := not_lt.mp hp
          have hnn : (0 : ℚ) ≤ (f : ℚ) * totalDur cands := by positivity
          linarith

lemma maxPasses_sufficient (cands : List VideoClip) (target : ℚ)
    (h1 : 0 < target) (h2 : 0 < totalDur cands) :
    target ≤ (maxPasses cands target : ℚ) * totalDur cands := by
  have hq : 0 < target / totalDur cands := div_pos h1 h2
  have hceil : (0 : ℤ) ≤ Int.ceil (target / totalDur cands) :=
    Int.ceil_nonneg hq.le
  have hcast : (((Int.ceil (target / totalDur cands)).toNat : ℕ) : ℚ)
      = ((Int.ceil (target / totalDur cands) : ℤ) : ℚ) := by
    rw [← Int.toNat_of_nonneg hceil]
    norm_cast
  calc target = target / totalDur cands * totalDur cands :=
        (div_mul_cancel₀ target h2.ne').symm
    _ ≤ ((Int.ceil (target / totalDur cands) : ℤ) : ℚ) * totalDur cands :=
        mul_le_mul_of_nonneg_right (Int.le_ceil _) h2.le
    _ ≤ (maxPasses cands target : ℚ) * totalDur cands := by
        refine mul_le_mul_of_nonneg_right ?_ h2.le
        rw [maxPasses]
        push_cast
        linarith [hcast]

lemma chunkWords_join (ws : List String) : (chunkWords ws).flatten = ws := by
  induction ws using chunkWords.induct with
  | case1 => simp [chunkWords]
  | case2 w ws ih => simp [chunkWords, ih]

lemma chunkWords_mem_ne_nil (ws : List String) :
    ∀ c ∈ chunkWords ws, c ≠ [] := by
  induction ws using chunkWords.induct with
  | case1 => simp [chunkWords]
  | case2 w ws ih =>
      rw [chunkWords]
      intro c hc
      rcases List.mem_cons.mp hc with hc | hc
      · simp [hc]
      · exact ih c hc

lemma getLast?_cons_ne {α : Type} (x : α) (l : List α) (h : l ≠ []) :
    (x :: l).getLast? = l.getLast? := by
  cases l with
  | nil => exact absurd rfl h
  | cons a as => simp [List.getLast?_cons_cons]

lemma buildSubs_ne_nil (d total t : ℚ) (c : List String) (chs : List (List String)) :
    buildSubs d total t (c :: chs) ≠ [] := by
  cases chs <;> simp [buildSubs]

lemma buildSubs_head_startTime (d total t : ℚ) (c : List String)
    (chs : List (List String)) :
    ((buildSubs d total t (c :: chs)).map (fun s => s.startTime)).head?
      = some t := by
  cases chs <;> simp [buildSubs]

lemma buildSubs_last_endTime (d total : ℚ) (chunks : List (List String)) :
    ∀ t, chunks ≠ [] →
      ((buildSubs d total t chunks).map (fun s => s.endTime)).getLast?
        = some d := by
  induction chunks with
  | nil => intro t h; exact absurd rfl h
  | cons c chs ih =>
      intro t _
      cases chs with
      | nil => simp [buildSubs]
      | cons c' rest =>
          rw [buildSubs, List.map_cons,
            getLast?_cons_ne _ _ (by
              simpa using buildSubs_ne_nil d total
                (t + d * (c.length : ℚ) / total) c' rest)]
          exact ih _ (by simp)

lemma buildSubs_chain (d total : ℚ) (chunks : List (List String)) :
    ∀ t, List.Chain' (fun a b => a.endTime = b.startTime)
      (buildSubs d total t chunks) := by
  induction chunks with
  | nil => intro t; simp [buildSubs]
  | cons c chs ih =>
      intro t
      cases chs with
      | nil => simp [buildSubs]
      | cons c' rest =>
          rw [buildSubs]
          refine List.chain'_cons'.mpr ⟨?_, ih _⟩
          intro b hb
          have hh := buildSubs_head_startTime d total
            (t + d * (c.length : ℚ) / total) c' rest
          rw [List.head?_map, hb] at hh
          simpa using hh.symm

lemma buildSubs_texts (d total : ℚ) (chunks : List (List String)) :
    ∀ t, (buildSubs d total t chunks).map (fun s => s.text)
      = chunks.map joinWords := by
  induction chunks with
  | nil => intro t; simp [buildSubs]
  | cons c chs ih =>
      intro t
      cases chs with
      | nil => simp [buildSubs]
      | cons c' rest => simp [buildSubs, ih]

lemma joinWords_append (a b : List String) (ha : a ≠ []) (hb : b ≠ []) :
    joinWords (a ++ b) = joinWords a ++ " " ++ joinWords b := by
  induction a with
  | nil => exact absurd rfl ha
  | cons w ws ih =>
      cases ws with
      | nil =>
          cases b with
          | nil => exact absurd rfl hb
          | cons x xs => simp [joinWords]
      | cons w' ws' =>
          have heq := ih (by simp)
          rw [List.cons_append] at heq
          calc joinWords ((w :: w' :: ws') ++ b)
              = w ++ " " ++ joinWords (w' :: (ws' ++ b)) := rfl
            _ = w ++ " " ++ (joinWords (w' :: ws') ++ " " ++ joinWords b) := by
                rw [heq]
            _ = joinWords (w :: w' :: ws') ++ " " ++ joinWords b := by
                show _ = w ++ " " ++ joinWords (w' :: ws') ++ " " ++ joinWords b
                simp [String.append_assoc]

lemma joinWords_map_join (chunks : List (List String))
    (h : ∀ c ∈ chunks, c ≠ []) :
    joinWords (chunks.map joinWords) = joinWords chunks.flatten := by
  induction chunks with
  | nil => rfl
  | cons c chs ih =>
      cases chs with
      | nil => simp [joinWords]
      | cons c' rest =>
          have hc : c ≠ [] := h c (by simp)
          have hc' : c' ≠ [] := h c' (by simp)
          have hjoin : (c' :: rest).flatten ≠ [] := by
            cases c' with
            | nil => exact absurd rfl hc'
            | cons x xs => simp
          have hrec := ih (fun a ha => h a (List.mem_cons_of_mem _ ha))
          calc joinWords ((c :: c' :: rest).map joinWords)
              = joinWords c ++ " " ++ joinWords ((c' :: rest).map joinWords) := by
                cases rest <;> rfl
            _ = joinWords c ++ " " ++ joinWords (c' :: rest).flatten := by
                rw [hrec]
            _ = joinWords (c ++ (c' :: rest).flatten) :=
                (joinWords_append c _ hc hjoin).symm
            _ = joinWords (c :: c' :: rest).flatten := by simp


lemma templates_length (prompt : String) : (templates prompt).length = 5 := by
  simp [templates]

lemma segmentCount_15 : segmentCount 15 = 3 := by
  rw [segmentCount, show ((15 : ℚ) / 5) = 3 by norm_num]
  simp

lemma segmentCount_30 : segmentCount 30 = 6 := by
  rw [segmentCount, show ((30 : ℚ) / 5) = 6 by norm_num]
  simp

lemma segmentCount_60 : segmentCount 60 = 12 := by
  rw [segmentCount, show ((60 : ℚ) / 5) = 12 by norm_num]
  simp

lemma createFallbackScript_sum (prompt : String) (d : ℚ)
    (h : segmentCount d ≠ 0) :
    ((createFallbackScript prompt d).map (fun s => s.duration)).sum = d := by
  have hrepl : ((createFallbackScript prompt d).map (fun s => s.duration))
      = List.replicate (segmentCount d) (d / (segmentCount d : ℚ)) := by
    refine List.eq_replicate_iff.mpr ⟨?_, ?_⟩
    · simp [createFallbackScript]
    · intro b hb
      simp only [createFallbackScript, List.map_map, List.mem_map,
        List.mem_range] at hb
      obtain ⟨i, _, rfl⟩ := hb
      rfl
  rw [hrepl, List.sum_replicate, nsmul_eq_mul]
  have hne : ((segmentCount d : ℕ) : ℚ) ≠ 0 := Nat.cast_ne_zero.mpr h
  field_simp

lemma select_scenarioB :
    selectClipsForDuration scenarioB 10 =
      some [⟨"u1", 4, none⟩, ⟨"u2", 4, none⟩, ⟨"u3", 2, none⟩] := by
  have h1 : maxPasses scenarioB 10 = 2 := by
    rw [maxPasses, show totalDur scenarioB = 12 by norm_num [totalDur, scenarioB],
      show ((10 : ℚ) / 12) = 5 / 6 by norm_num,
      show (Int.ceil ((5 : ℚ) / 6)) = 1 by (rw [Int.ceil_eq_iff]; norm_num)]
    decide
  rw [selectClipsForDuration, if_neg (by simp [scenarioB]), h1]
  norm_num [scenarioB, selectGo, takePass]

lemma select_single_30 :
    selectClipsForDuration [⟨"u", 30, none⟩] 30 = some [⟨"u", 30, none⟩] := by
  have h1 : maxPasses [⟨"u", 30, none⟩] 30 = 2 := by
    rw [maxPasses, show totalDur [⟨"u", 30, none⟩] = 30 by norm_num [totalDur],
      show ((30 : ℚ) / 30) = 1 by norm_num]
    simp
  rw [selectClipsForDuration, if_neg (by simp), h1]
  norm_num [selectGo, takePass]

/-- C1: for every prompt and duration `d ∈ {15, 30, 60}`,
`createFallbackScript prompt d` returns exactly `ceil(d/5)` segments, each of
equal duration `d / ceil(d/5)`, whose durations sum to exactly `d`; the `i`-th
segment's text is the `i mod 5`-th of the five template sentences
parameterized by the prompt; and two calls with identical inputs give
identical lists (the embedding is a pure function, so this is definitional). -/
theorem fallback_script_shape (prompt : String) (d : ℚ)
    (hd : d = 15 ∨ d = 30 ∨ d = 60) :
    (createFallbackScript prompt d).length = (Int.ceil (d / 5)).toNat ∧
    (∀ s ∈ createFallbackScript prompt d,
      s.duration = d / (((Int.ceil (d / 5)).toNat : ℕ) : ℚ)) ∧
    ((createFallbackScript prompt d).map (fun s => s.duration)).sum = d ∧
    (∀ i, ∀ h : i < (createFallbackScript prompt d).length,
      ((createFallbackScript prompt d).get ⟨i, h⟩).text
        = (templates prompt).getD (i % 5) "") ∧
    createFallbackScript prompt d = createFallbackScript prompt d := by
  refine ⟨?_, ?_, ?_, ?_, rfl⟩
  · simp [createFallbackScript, segmentCount]
  · intro s hs
    simp only [createFallbackScript, List.mem_map] at hs
    obtain ⟨i, _, rfl⟩ := hs
    rfl
  · refine createFallbackScript_sum prompt d ?_
    rcases hd with h | h | h <;> subst h <;>
      simp [segmentCount_15, segmentCount_30, segmentCount_60]
  · intro i h
    have hlen := templates_length prompt
    simp only [createFallbackScript, List.get_eq_getElem] at h ⊢
    simp [List.getElem_map, List.getElem_range, hlen]

/-- Witness for C1 at prompt `"cats"`, duration 15. -/
theorem fallback_script_shape_witness :
    (createFallbackScript "cats" 15).length = (Int.ceil ((15 : ℚ) / 5)).toNat ∧
    (∀ s ∈ createFallbackScript "cats" 15,
      s.duration = 15 / (((Int.ceil ((15 : ℚ) / 5)).toNat : ℕ) : ℚ)) ∧
    ((createFallbackScript "cats" 15).map (fun s => s.duration)).sum = 15 ∧
    (∀ i, ∀ h : i < (createFallbackScript "cats" 15).length,
      ((createFallbackScript "cats" 15).get ⟨i, h⟩).text
        = (templates "cats").getD (i % 5) "") ∧
    createFallbackScript "cats" 15 = createFallbackScript "cats" 15 :=
  fallback_script_shape "cats" 15 (Or.inl rfl)

/-- C2: for every candidate list of positive total duration and positive
target, the modelled Clip Selector succeeds with a non-empty selection, in
selection order, whose durations sum to exactly the target (so the sum is
≥ target with the minimum possible overshoot, zero); every clip but the last
is a candidate taken whole, and the last is a candidate trimmed to exactly the
remaining needed amount with its `startTime` (and url) preserved. -/
theorem clip_selector_meets_target (cands : List VideoClip) (target : ℚ)
    (h1 : 0 < target) (h2 : 0 < totalDur cands) :
    ∃ out, selectClipsForDuration cands target = some out ∧ out ≠ [] ∧
      totalDur out = target ∧
      (∀ x ∈ out.dropLast, x ∈ cands) ∧
      ∃ c ∈ cands, out.getLast? =
        some { c with duration := target - totalDur out.dropLast } := by
  have hne : cands ≠ [] := by
    intro h
    rw [h, totalDur_nil] at h2
    exact absurd h2 (lt_irrefl 0)
  have hfuel := maxPasses_sufficient cands target h1 h2
  have hs := selectGo_isSome cands (maxPasses cands target) target [] h2 hfuel
  obtain ⟨out, hout⟩ := Option.isSome_iff_exists.mp hs
  have hsel : selectClipsForDuration cands target = some out := by
    rw [selectClipsForDuration, if_neg (by simp [List.isEmpty_iff, hne])]
    exact hout
  obtain ⟨mid, c, hmem, hc, hstruct⟩ :=
    selectGo_some_structure cands (maxPasses cands target) target [] out h1 hout
  rw [List.nil_append] at hstruct
  subst hstruct
  refine ⟨_, hsel, by simp, ?_, ?_, c, hc, ?_⟩
  · rw [totalDur_append, totalDur_cons, totalDur_nil]
    ring
  · rw [List.dropLast_concat]
    exact hmem
  · rw [List.getLast?_concat, List.dropLast_concat]

/-- Witness for C2: scenario B — candidates of durations 4, 4, 4 and target
10 give selected durations 4, 4, 2 (the last trimmed), total exactly 10. -/
theorem clip_selector_witness :
    (0 : ℚ) < 10 ∧ 0 < totalDur scenarioB ∧
    (∃ out, selectClipsForDuration scenarioB 10 = some out ∧ out ≠ [] ∧
      totalDur out = 10 ∧
      (∀ x ∈ out.dropLast, x ∈ scenarioB) ∧
      ∃ c ∈ scenarioB, out.getLast? =
        some { c with duration := 10 - totalDur out.dropLast }) ∧
    selectClipsForDuration scenarioB 10 =
      some [⟨"u1", 4, none⟩, ⟨"u2", 4, none⟩, ⟨"u3", 2, none⟩] :=
  ⟨by norm_num, by norm_num [totalDur, scenarioB],
   clip_selector_meets_target scenarioB 10 (by norm_num)
     (by norm_num [totalDur, scenarioB]),
   select_scenarioB⟩

/-- C3: for every text with at least one word and every duration `d > 0`, the
modelled Caption Aligner returns a non-empty segment list that starts at 0,
ends at exactly `d`, is contiguous (each segment's end is the next segment's
start), and whose texts, concatenated in order, carry exactly the original
words. -/
theorem caption_aligner_partition (text : String) (d : ℚ) (_hd : 0 < d)
    (hw : wordsOf text ≠ []) :
    generateSubtitles text d ≠ [] ∧
    ((generateSubtitles text d).map (fun s => s.startTime)).head? = some 0 ∧
    ((generateSubtitles text d).map (fun s => s.endTime)).getLast? = some d ∧
    List.Chain' (fun a b => a.endTime = b.startTime) (generateSubtitles text d) ∧
    joinWords ((generateSubtitles text d).map (fun s => s.text))
      = joinWords (wordsOf text) := by
  obtain ⟨w, ws, hws⟩ := List.exists_cons_of_ne_nil hw
  have hchunks : chunkWords (wordsOf text)
      = (w :: ws.take 4) :: chunkWords (ws.drop 4) := by
    rw [hws, chunkWords]
  have hgen : generateSubtitles text d
      = buildSubs d ((wordsOf text).length : ℚ) 0 (chunkWords (wordsOf text)) :=
    rfl
  refine ⟨?_, ?_, ?_, ?_, ?_⟩
  · rw [hgen, hchunks]
    exact buildSubs_ne_nil _ _ _ _ _
  · rw [hgen, hchunks]
    exact buildSubs_head_startTime _ _ _ _ _
  · rw [hgen]
    exact buildSubs_last_endTime _ _ _ 0 (by rw [hchunks]; simp)
  · rw [hgen]
    exact buildSubs_chain _ _ _ 0
  · rw [hgen, buildSubs_texts,
      joinWords_map_join _ (chunkWords_mem_ne_nil (wordsOf text)),
      chunkWords_join]

/-- Witness for C3 at a concrete six-word text and duration 7. -/
theorem caption_aligner_witness :
    (0 : ℚ) < 7 ∧ wordsOf "hello world this is lovely today" ≠ [] ∧
    (generateSubtitles "hello world this is lovely today" 7 ≠ [] ∧
    ((generateSubtitles "hello world this is lovely today" 7).map
      (fun s => s.startTime)).head? = some 0 ∧
    ((generateSubtitles "hello world this is lovely today" 7).map
      (fun s => s.endTime)).getLast? = some 7 ∧
    List.Chain' (fun a b => a.endTime = b.startTime)
      (generateSubtitles "hello world this is lovely today" 7) ∧
    joinWords ((generateSubtitles "hello world this is lovely today" 7).map
      (fun s => s.text))
      = joinWords (wordsOf "hello world this is lovely today")) :=
  ⟨by decide, by decide,
   caption_aligner_partition "hello world this is lovely today" 7
     (by decide) (by decide)⟩

/-- C4: the claim says no failure of the external call ever raises past the
`POST` handler.  The code violates this: on a network failure, a non-OK HTTP
response, or a malformed response shape, control reaches the catch block,
whose own `await req.json()` re-reads the already-consumed request body and
rejects, so the handler's promise rejects instead of resolving with fallback
segments.  This theorem evaluates the handler at those failing inputs. -/
theorem post_rejects_on_upstream_failure :
    (POST { prompt := "cats", duration := 30, bodyValid := true,
            apiKey := some "sk-test", fetchResult := .netError }).result
      = .rejected "Body is unusable: Body has already been read" ∧
    (POST { prompt := "cats", duration := 30, bodyValid := true,
            apiKey := some "sk-test", fetchResult := .notOk }).result
      = .rejected "Body is unusable: Body has already been read" ∧
    (POST { prompt := "cats", duration := 30, bodyValid := true,
            apiKey := some "sk-test", fetchResult := .shapeError }).result
      = .rejected "Body is unusable: Body has already been read" :=
  ⟨rfl, rfl, rfl⟩

/-- C5 counterexample: the claim says fallback keyword extraction always
yields at least one token, for every prompt.  The prompt `"the cat"` has only
a stop word and a 3-letter word, so the keyword list is empty, and every
fallback segment carries an empty keyword set. -/
theorem keywords_can_be_empty :
    extractKeywords "the cat" = [] ∧
    ∀ s ∈ createFallbackScript "the cat" 15, s.keywords = [] := by
  refine ⟨by decide, ?_⟩
  intro s hs
  simp only [createFallbackScript, List.mem_map] at hs
  obtain ⟨i, _, rfl⟩ := hs
  show extractKeywords "the cat" = []
  decide

/-- C5 as amended: whenever the lowercased, whitespace-split prompt contains
a word that is not a stop word and is longer than 3 characters, keyword
extraction yields at least one token and every fallback segment's keyword set
is non-empty. -/
theorem keywords_nonempty_when_long_word (prompt : String) (d : ℚ)
    (h : ∃ w ∈ splitWs (jsToLowerCase prompt),
      w ∉ stopWords ∧ w.length > 3) :
    extractKeywords prompt ≠ [] ∧
    ∀ s ∈ createFallbackScript prompt d, s.keywords ≠ [] := by
  have hk : extractKeywords prompt ≠ [] := by
    obtain ⟨w, hw, h1, h2⟩ := h
    rw [extractKeywords]
    intro hnil
    rcases List.take_eq_nil_iff.mp hnil with h3 | h3
    · exact absurd h3 (by norm_num)
    · have hmem : w ∈ (splitWs (jsToLowerCase prompt)).filter
          (fun word => decide (word ∉ stopWords) && decide (word.length > 3)) :=
        List.mem_filter.mpr ⟨hw, by simp [h1, h2]⟩
      rw [h3] at hmem
      exact absurd hmem (List.not_mem_nil w)
  refine ⟨hk, ?_⟩
  intro s hs
  simp only [createFallbackScript, List.mem_map] at hs
  obtain ⟨i, _, rfl⟩ := hs
  exact hk

/-- Witness for the amended C5 at prompt `"morning coffee routine"`. -/
theorem keywords_nonempty_witness :
    (∃ w ∈ splitWs (jsToLowerCase "morning coffee routine"),
      w ∉ stopWords ∧ w.length > 3) ∧
    (extractKeywords "morning coffee routine" ≠ [] ∧
     ∀ s ∈ createFallbackScript "morning coffee routine" 15,
       s.keywords ≠ []) :=
  ⟨by decide, keywords_nonempty_when_long_word "morning coffee routine" 15
    (by decide)⟩

/-- C6: keyword extraction equals the spec's definition (lowercase, split on
whitespace, discard stop words and words of length ≤ 3, keep the first 3),
never returns more than 3 tokens, and never returns a stop word or a token of
length ≤ 3.  Determinism is definitional: the embedding is a pure function of
the prompt. -/
theorem extract_keywords_correct (prompt : String) :
    extractKeywords prompt = extractKeywordsSpec prompt ∧
    (extractKeywords prompt).length ≤ 3 ∧
    ∀ w ∈ extractKeywords prompt, w ∉ stopWords ∧ 3 < w.length := by
  refine ⟨?_, ?_, ?_⟩
  · rw [extractKeywords, extractKeywordsSpec, List.filter_filter]
    congr 1
    apply List.filter_congr
    intro x _
    by_cases hlen : x.length > 3
    · have hne : x ≠ "" := by
        intro h
        rw [h] at hlen
        simp at hlen
      simp [hne]
    · simp [decide_eq_false hlen]
  · rw [extractKeywords]
    exact List.length_take_le _ _
  · intro w hw
    rw [extractKeywords] at hw
    have hw' := List.mem_of_mem_take hw
    have hpred := List.of_mem_filter hw'
    have h1 := (Bool.and_eq_true _ _).mp hpred
    exact ⟨of_decide_eq_true h1.1, of_decide_eq_true h1.2⟩

/-- C7: whenever the clip search returns an empty candidate list, the run
ends in the Failed state with the user-visible "No videos found for the given
prompt" error, having attempted only the script and search stages — narration
synthesis, caption alignment and composition are never attempted, and the run
produces no video. -/
theorem no_videos_fails_before_composition (env : GenEnv)
    (h : env.searchResult = .ok []) :
    (handleGenerate env).error = some "No videos found for the given prompt" ∧
    (handleGenerate env).stages = [Stage.script, Stage.search] ∧
    Stage.voiceover ∉ (handleGenerate env).stages ∧
    Stage.subtitles ∉ (handleGenerate env).stages ∧
    Stage.compose ∉ (handleGenerate env).stages ∧
    (handleGenerate env).videoReady = false := by
  have heq : handleGenerate env =
      { stages := [.script, .search],
        error := some "No videos found for the given prompt",
        captionDuration := none, subtitles := [], videoReady := false } := by
    simp [handleGenerate, h]
  rw [heq]
  exact ⟨rfl, rfl, by decide, by decide, by decide, rfl⟩

/-- Witness for C7: a concrete run whose search yields no clips. -/
theorem no_videos_witness :
    noClipsEnv.searchResult = .ok [] ∧
    ((handleGenerate noClipsEnv).error
        = some "No videos found for the given prompt" ∧
    (handleGenerate noClipsEnv).stages = [Stage.script, Stage.search] ∧
    Stage.voiceover ∉ (handleGenerate noClipsEnv).stages ∧
    Stage.subtitles ∉ (handleGenerate noClipsEnv).stages ∧
    Stage.compose ∉ (handleGenerate noClipsEnv).stages ∧
    (handleGenerate noClipsEnv).videoReady = false) :=
  ⟨rfl, no_videos_fails_before_composition noClipsEnv rfl⟩

/-- C8 counterexample: the claim says the duration passed to caption
alignment always equals the duration the synthesizer reports.  In
`zeroDurationEnv` the voiceover succeeds and reports `0`; `duration ||
settings.duration` is then falsy, so the requested target duration 30 — not
the reported 0 — is passed to `generateSubtitles`. -/
theorem caption_duration_zero_fallback :
    zeroDurationEnv.voiceResult = .ok (some 0) ∧
    (handleGenerate zeroDurationEnv).captionDuration = some 30 ∧
    (30 : ℚ) ≠ 0 := by
  refine ⟨rfl, ?_, by norm_num⟩
  simp [handleGenerate, zeroDurationEnv, select_single_30, jsOrDuration]

/-- C8 as amended: in every run that reaches narration synthesis and in which
synthesis succeeds, the duration passed to caption alignment is the reported
duration whenever that report is nonzero; a zero or absent report falls back
to the requested target duration (JavaScript `duration || settings.duration`). -/
theorem caption_duration_from_report (env : GenEnv) (clips : List VideoClip)
    (rep : Option ℚ) (h1 : env.searchResult = .ok clips)
    (h2 : clips.length ≠ 0)
    (h3 : (selectClipsForDuration clips env.settings.duration).isSome)
    (h4 : env.voiceResult = .ok rep) :
    (handleGenerate env).captionDuration
      = some (jsOrDuration rep env.settings.duration) ∧
    ∀ dq : ℚ, rep = some dq → dq ≠ 0 →
      (handleGenerate env).captionDuration = some dq := by
  obtain ⟨sel, hsel⟩ := Option.isSome_iff_exists.mp h3
  have hmain : (handleGenerate env).captionDuration
      = some (jsOrDuration rep env.settings.duration) := by
    cases hf : env.ffmpegResult with
    | error e => simp [handleGenerate, h1, h2, hsel, h4, hf]
    | ok u =>
        cases hc : env.composeResult with
        | error e => simp [handleGenerate, h1, h2, hsel, h4, hf, hc]
        | ok v => simp [handleGenerate, h1, h2, hsel, h4, hf, hc]
  refine ⟨hmain, ?_⟩
  intro dq hdq hne
  rw [hmain, hdq]
  simp [jsOrDuration, hne]

/-- Witness for the amended C8: a run whose voiceover reports 12 seconds. -/
theorem caption_duration_witness :
    reportedDurationEnv.searchResult = .ok [⟨"u", 30, none⟩] ∧
    ([⟨"u", 30, none⟩] : List VideoClip).length ≠ 0 ∧
    (selectClipsForDuration [⟨"u", 30, none⟩]
      reportedDurationEnv.settings.duration).isSome ∧
    reportedDurationEnv.voiceResult = .ok (some 12) ∧
    ((handleGenerate reportedDurationEnv).captionDuration
        = some (jsOrDuration (some 12) reportedDurationEnv.settings.duration) ∧
     ∀ dq : ℚ, (some (12 : ℚ)) = some dq → dq ≠ 0 →
       (handleGenerate reportedDurationEnv).captionDuration = some dq) :=
  ⟨rfl, by norm_num, by rw [show reportedDurationEnv.settings.duration = 30
      from rfl, select_single_30]; rfl, rfl,
   caption_duration_from_report reportedDurationEnv [⟨"u", 30, none⟩]
     (some 12) rfl (by norm_num)
     (by rw [show reportedDurationEnv.settings.duration = 30 from rfl,
       select_single_30]; rfl) rfl⟩

/-- C9: whenever the prompt is empty or a run is already in progress, the
generate button is disabled, and clicking it does not change the state — the
pipeline never leaves the idle state. -/
theorem generate_disabled_blocks_run (s : UIState)
    (h : s.prompt = "" ∨ s.isGenerating = true) :
    generateDisabled s = true ∧ clickGenerate s = s := by
  have hd : generateDisabled s = true := by
    rcases h with h | h
    · simp [generateDisabled, h]
    · simp [generateDisabled, h]
  exact ⟨hd, by simp [clickGenerate, hd]⟩

/-- Witness for C9 at the empty-prompt idle state. -/
theorem generate_disabled_witness :
    (({ prompt := "", isGenerating := false } : UIState).prompt = "" ∨
      ({ prompt := "", isGenerating := false } : UIState).isGenerating = true) ∧
    (generateDisabled { prompt := "", isGenerating := false } = true ∧
      clickGenerate { prompt := "", isGenerating := false }
        = { prompt := "", isGenerating := false }) :=
  ⟨Or.inl rfl,
   generate_disabled_blocks_run { prompt := "", isGenerating := false }
     (Or.inl rfl)⟩

/-- C10: when no API key is configured (and the request body parses), the
`POST` handler returns a resolved response of status 200 whose body carries
both the error field `'API key not configured'` and the fallback script
segments, and the external fetch is never attempted. -/
theorem missing_key_returns_fallback (env : PostEnv)
    (h1 : env.bodyValid = true) (h2 : env.apiKey = none) :
    POST env =
      { result := .resolved
          { status := 200
            error := some "API key not configured"
            segments := createFallbackScript env.prompt env.duration }
        fetchAttempted := false } := by
  simp [POST, tryBlock, h1, h2]

/-- Witness for C10 at a concrete request. -/
theorem missing_key_witness :
    ({ prompt := "cats", duration := 30, bodyValid := true, apiKey := none,
       fetchResult := .netError } : PostEnv).bodyValid = true ∧
    ({ prompt := "cats", duration := 30, bodyValid := true, apiKey := none,
       fetchResult := .netError } : PostEnv).apiKey = none ∧
    POST { prompt := "cats", duration := 30, bodyValid := true,
           apiKey := none, fetchResult := .netError } =
      { result := .resolved
          { status := 200
            error := some "API key not configured"
            segments := createFallbackScript "cats" 30 }
        fetchAttempted := false } :=
  ⟨rfl, rfl, missing_key_returns_fallback _ rfl rfl⟩
